import Mathlib

/-!
Verification of the subprocess execution engine of pytest-shell-utilities.

The development shallowly embeds, in Lean, the data model and operations of
the engine: UTF-8 stream decoding, best-effort structured-data (JSON)
extraction from stdout, executable path resolution, environment merging,
timeout supervision, process lifecycle queries, and the immutable `Callback`
value object from `customtypes.py`.

The `Callback` embedding is translated directly from
`src/pytestshellutils/customtypes.py`. The process-runner components
(`ScriptSubprocess`, `run`, `terminate`, `is_running`, `get_display_name`,
`get_script_path`) are not part of the shown sources, so they are modelled
from the specification, as marked on each definition.
-/

namespace ShellUtils

/-- UTF-8 encoding of one Unicode scalar value as a byte list. -/
def utf8EncodeChar (c : Char) : List Nat :=
  if c.toNat < 128 then [c.toNat]
  else if c.toNat < 2048 then
    [192 + c.toNat / 64, 128 + c.toNat % 64]
  else if c.toNat < 65536 then
    [224 + c.toNat / 4096, 128 + c.toNat / 64 % 64, 128 + c.toNat % 64]
  else
    [240 + c.toNat / 262144, 128 + c.toNat / 4096 % 64,
      128 + c.toNat / 64 % 64, 128 + c.toNat % 64]

/-- UTF-8 encoding of a character sequence. -/
def utf8Encode (s : List Char) : List Nat := (s.map utf8EncodeChar).flatten

/-- Decode the continuation of a two-byte UTF-8 sequence with lead byte `b0`. -/
def utf8Cont1 (b0 : Nat) : List Nat → Option (Nat × List Nat)
  | b1 :: rest =>
    if 128 ≤ b1 ∧ b1 < 192 ∧ 128 ≤ (b0 - 192) * 64 + (b1 - 128) then
      some ((b0 - 192) * 64 + (b1 - 128), rest)
    else none
  | [] => none

/-- Decode the continuation of a three-byte UTF-8 sequence with lead byte `b0`,
rejecting overlong forms and surrogate code points. -/
def utf8Cont2 (b0 : Nat) : List Nat → Option (Nat × List Nat)
  | b1 :: b2 :: rest =>
    if 128 ≤ b1 ∧ b1 < 192 ∧ 128 ≤ b2 ∧ b2 < 192 ∧
        2048 ≤ (b0 - 224) * 4096 + (b1 - 128) * 64 + (b2 - 128) ∧
        ((b0 - 224) * 4096 + (b1 - 128) * 64 + (b2 - 128) < 55296 ∨
          57343 < (b0 - 224) * 4096 + (b1 - 128) * 64 + (b2 - 128)) then
      some ((b0 - 224) * 4096 + (b1 - 128) * 64 + (b2 - 128), rest)
    else none
  | _ => none

/-- Decode the continuation of a four-byte UTF-8 sequence with lead byte `b0`,
rejecting overlong and out-of-range forms. -/
def utf8Cont3 (b0 : Nat) : List Nat → Option (Nat × List Nat)
  | b1 :: b2 :: b3 :: rest =>
    if 128 ≤ b1 ∧ b1 < 192 ∧ 128 ≤ b2 ∧ b2 < 192 ∧ 128 ≤ b3 ∧ b3 < 192 ∧
        65536 ≤ (b0 - 240) * 262144 + (b1 - 128) * 4096 + (b2 - 128) * 64 + (b3 - 128) ∧
        (b0 - 240) * 262144 + (b1 - 128) * 4096 + (b2 - 128) * 64 + (b3 - 128) < 1114112 then
      some ((b0 - 240) * 262144 + (b1 - 128) * 4096 + (b2 - 128) * 64 + (b3 - 128), rest)
    else none
  | _ => none

/-- Decode one UTF-8-encoded scalar value from the front of a byte list,
returning the code point and the remaining bytes. -/
def utf8DecodeChar? : List Nat → Option (Nat × List Nat)
  | [] => none
  | b0 :: rest =>
    if b0 < 128 then some (b0, rest)
    else if b0 < 192 then none
    else if b0 < 224 then utf8Cont1 b0 rest
    else if b0 < 240 then utf8Cont2 b0 rest
    else if b0 < 245 then utf8Cont3 b0 rest
    else none

/-- Fuel-indexed UTF-8 decoding loop over a byte list. -/
def utf8DecodeLoop : Nat → List Nat → Option (List Char)
  | _, [] => some []
  | 0, _ :: _ => none
  | fuel + 1, b0 :: rest =>
    match utf8DecodeChar? (b0 :: rest) with
    | some (n, rest1) =>
      match utf8DecodeLoop fuel rest1 with
      | some cs => some (Char.ofNat n :: cs)
      | none => none
    | none => none

/-- UTF-8 decoding of a byte list, rejecting malformed sequences
(stray continuation bytes, truncated sequences, overlong forms,
surrogates, out-of-range values). -/
def utf8Decode (l : List Nat) : Option (List Char) :=
  utf8DecodeLoop l.length l

/-- Structured-data values: the JSON-like documents the engine opportunistically
extracts from a child's stdout. -/
inductive JsonValue where
  | null
  | bool (b : Bool)
  | num (n : Int)
  | str (s : String)
  | arr (elems : List JsonValue)
  | obj (fields : List (String × JsonValue))

/-- The double-quote character. -/
def quoteChar : Char := Char.ofNat 34

/-- The backslash character. -/
def backslashChar : Char := Char.ofNat 92

/-- The opening curly brace character. -/
def lbraceChar : Char := Char.ofNat 123

/-- The closing curly brace character. -/
def rbraceChar : Char := Char.ofNat 125

/-- The single-quote character. -/
def squoteChar : Char := Char.ofNat 39

/-- JSON insignificant whitespace. -/
def isJsonWs (c : Char) : Bool :=
  c = ' ' || c = Char.ofNat 9 || c = Char.ofNat 10 || c = Char.ofNat 13

/-- Drop leading JSON whitespace. -/
def skipWs (l : List Char) : List Char := l.dropWhile isJsonWs

/-- Strip surrounding whitespace from a character list. -/
def strip (l : List Char) : List Char :=
  ((l.dropWhile isJsonWs).reverse.dropWhile isJsonWs).reverse

/-- Parse the body of a JSON string after its opening quote, handling the
common escapes, returning the string contents and the remaining input. -/
def parseStringChars : List Char → List Char → Option (List Char × List Char)
  | [], _ => none
  | c :: rest, acc =>
    if c = quoteChar then some (acc.reverse, rest)
    else if c = backslashChar then
      match rest with
      | [] => none
      | e :: rest1 =>
        if e = quoteChar ∨ e = backslashChar ∨ e = '/' then parseStringChars rest1 (e :: acc)
        else if e = 'n' then parseStringChars rest1 (Char.ofNat 10 :: acc)
        else if e = 't' then parseStringChars rest1 (Char.ofNat 9 :: acc)
        else if e = 'r' then parseStringChars rest1 (Char.ofNat 13 :: acc)
        else none
    else parseStringChars rest (c :: acc)

/-- Numeric value of a decimal digit character. -/
def digitVal (c : Char) : Nat := c.toNat - 48

/-- Value of a decimal digit string. -/
def digitsToNat (ds : List Char) : Nat := ds.foldl (fun a c => a * 10 + digitVal c) 0

/-- Parse an integer JSON numeral (optional leading minus, one or more digits). -/
def parseNumber (l : List Char) : Option (JsonValue × List Char) :=
  match l with
  | [] => none
  | c :: rest =>
    if c = '-' then
      let p := rest.span (fun d => d.isDigit)
      if p.1 = [] then none else some (.num (-(digitsToNat p.1 : Int)), p.2)
    else
      let p := (c :: rest).span (fun d => d.isDigit)
      if p.1 = [] then none else some (.num ((digitsToNat p.1 : Int)), p.2)

mutual

/-- Parse one JSON value from the input, returning it and the remaining input. -/
def parseValue : Nat → List Char → Option (JsonValue × List Char)
  | 0, _ => none
  | fuel + 1, input =>
    match skipWs input with
    | [] => none
    | c :: rest =>
      if c = quoteChar then
        match parseStringChars rest [] with
        | some (s, rest1) => some (.str (String.mk s), rest1)
        | none => none
      else if c = lbraceChar then parseObjMembers fuel rest []
      else if c = '[' then parseArrElems fuel rest []
      else if c = 't' then
        match rest with
        | 'r' :: 'u' :: 'e' :: rest1 => some (.bool true, rest1)
        | _ => none
      else if c = 'f' then
        match rest with
        | 'a' :: 'l' :: 's' :: 'e' :: rest1 => some (.bool false, rest1)
        | _ => none
      else if c = 'n' then
        match rest with
        | 'u' :: 'l' :: 'l' :: rest1 => some (.null, rest1)
        | _ => none
      else if c = '-' ∨ c.isDigit then parseNumber (c :: rest)
      else none

/-- Parse the members of a JSON object after its opening brace. -/
def parseObjMembers :
    Nat → List Char → List (String × JsonValue) → Option (JsonValue × List Char)
  | 0, _, _ => none
  | fuel + 1, input, acc =>
    match skipWs input with
    | [] => none
    | c :: rest =>
      if c = rbraceChar ∧ acc.isEmpty then some (.obj [], rest)
      else if c = quoteChar then
        match parseStringChars rest [] with
        | some (key, rest1) =>
          match skipWs rest1 with
          | [] => none
          | c2 :: rest2 =>
            if c2 = ':' then
              match parseValue fuel rest2 with
              | some (v, rest3) =>
                match skipWs rest3 with
                | [] => none
                | c3 :: rest4 =>
                  if c3 = ',' then
                    parseObjMembers fuel rest4 ((String.mk key, v) :: acc)
                  else if c3 = rbraceChar then
                    some (.obj ((String.mk key, v) :: acc).reverse, rest4)
                  else none
              | none => none
            else none
        | none => none
      else none

/-- Parse the elements of a JSON array after its opening bracket. -/
def parseArrElems : Nat → List Char → List JsonValue → Option (JsonValue × List Char)
  | 0, _, _ => none
  | fuel + 1, input, acc =>
    match skipWs input with
    | [] => none
    | c :: rest =>
      if c = ']' ∧ acc.isEmpty then some (.arr [], rest)
      else
        match parseValue fuel (c :: rest) with
        | some (v, rest1) =>
          match skipWs rest1 with
          | [] => none
          | c2 :: rest2 =>
            if c2 = ',' then parseArrElems fuel rest2 (v :: acc)
            else if c2 = ']' then some (.arr (v :: acc).reverse, rest2)
            else none
        | none => none

end

/-- Best-effort structured-data (JSON) extraction from a string: strip
surrounding whitespace, parse one document, and require only whitespace to
remain; any failure yields `none`, never an error. -/
def jsonParse (s : String) : Option JsonValue :=
  match parseValue (strip s.data).length.succ (strip s.data) with
  | some (v, rest) => if skipWs rest = [] then some v else none
  | none => none

/-- The well-formed stdout used by the repository's JSON-output test. -/
def goodJsonText : String :=
  String.mk [lbraceChar, quoteChar, 'a', quoteChar, ':', ' ', quoteChar, 'a', quoteChar,
    ',', ' ', quoteChar, '1', quoteChar, ':', ' ', '1', rbraceChar]

/-- The malformed (single-quoted) stdout used by the repository's JSON-output test. -/
def badJsonText : String :=
  String.mk [lbraceChar, squoteChar, 'a', squoteChar, ':', ' ', squoteChar, 'a', squoteChar,
    ',', ' ', squoteChar, '1', squoteChar, ':', ' ', '1', rbraceChar]


/-- Modelled from the spec: the text produced by decoding captured stream
bytes "as UTF-8 text (not a narrower/legacy encoding)". Byte sequences that
are not valid UTF-8 are outside the specified behaviour and decode to the
empty string here. -/
def decodeUtf8Text (bs : List Nat) : String :=
  match utf8Decode bs with
  | some cs => String.mk cs
  | none => ""

/-- Modelled from the spec: the immutable RunResult value of one run, with
fields return code, stdout text, stderr text and optional decoded data
(`shell.py` with the real `ProcessResult` is not among the shown sources). -/
structure RunResult where
  returncode : Int
  stdout : String
  stderr : String
  data : Option JsonValue

/-- Observable behaviour of one child process: how long it runs on the wall
clock before exiting, its exit code, and the bytes it writes to each stream. -/
structure ProcBehavior where
  duration : Nat
  exitcode : Int
  stdoutBytes : List Nat
  stderrBytes : List Nat

/-- A spawned child process owned by a runner: its pid and behaviour. -/
structure ChildProc where
  pid : Nat
  behavior : ProcBehavior

/-- Modelled from the spec: the ProcessRunner (`ScriptSubprocess` in the
tests; `shell.py` is not among the shown sources) with its script
identifier, default timeout, default environment, default working directory
and current child process handle. -/
structure ScriptSubprocess where
  script_name : String
  timeout : Option Nat := none
  environ : Option (List (String × String)) := none
  cwd : Option String := none
  child : Option ChildProc := none

/-- Modelled from the spec: the ambient state the engine consumes, passed
explicitly — existing executable files, the PATH-equivalent search list,
platform executable suffixes, and the ambient process environment. -/
structure World where
  files : List String
  searchPath : List String
  exeSuffixes : List String
  ambientEnviron : List (String × String)

/-- Modelled from the spec: the error surface of a run — `ScriptNotFound`
naming the searched identifier, and `RunTimeout` carrying the effective
timeout and the partial captured output. -/
inductive RunError where
  | scriptNotFound (script_name : String)
  | runTimeout (effective : Nat) (stdout stderr : String)

/-- Modelled from the spec: per-call configuration of `run` — arguments,
optional environment overrides, optional working directory override,
optional timeout override. -/
structure RunConfig where
  args : List String := []
  env : Option (List (String × String)) := none
  cwd : Option String := none
  timeout : Option Nat := none

/-- Modelled from the spec: the library default timeout used when neither a
per-call override nor a runner default is given. -/
def libraryDefaultTimeout : Nat := 60

/-- Modelled from the spec: the effective timeout of one `run` call — the
per-call override if given, else the runner's default, else the library
default. -/
def effectiveTimeout (r : ScriptSubprocess) (override : Option Nat) : Nat :=
  match override with
  | some t => t
  | none =>
    match r.timeout with
    | some t => t
    | none => libraryDefaultTimeout

/-- Modelled from the spec: the candidate paths probed for a bare script
identifier — each search-path directory joined with the identifier, plain
and augmented with each recognized executable suffix in priority order. -/
def scriptCandidates (w : World) (name : String) : List String :=
  (w.searchPath.map
    (fun d => ("" :: w.exeSuffixes).map (fun suf => d ++ "/" ++ name ++ suf))).flatten

/-- Modelled from the spec: the ScriptPathResolver — an identifier that
exists on disk is returned unchanged; otherwise the search path is probed;
if no match is found the `ScriptNotFound` error names the original
identifier. -/
def resolveScript (w : World) (name : String) : Except RunError String :=
  if w.files.contains name then .ok name
  else
    match (scriptCandidates w name).find? (fun p => w.files.contains p) with
    | some p => .ok p
    | none => .error (.scriptNotFound name)

/-- Modelled from the spec: merging per-call environment overrides onto a
default environment — last write wins, so overridden keys take the per-call
value and unrelated keys keep their default value. -/
def mergeEnviron (base overrides : List (String × String)) :
    List (String × String) :=
  base.filter (fun kv => (overrides.lookup kv.fst).isNone) ++ overrides

/-- Modelled from the spec: the environment handed to the child of one
`run` call — per-call overrides layered onto the runner's default
environment, which itself defaults to the ambient process environment. -/
def buildEnviron (w : World) (r : ScriptSubprocess)
    (callEnv : Option (List (String × String))) : List (String × String) :=
  let base :=
    match r.environ with
    | some e => e
    | none => w.ambientEnviron
  match callEnv with
  | some e => mergeEnviron base e
  | none => base

/-- Modelled from the spec: `run` — resolve the executable path, merge the
environment, spawn the child, block until natural exit or expiry of the
effective timeout; on natural exit decode both streams as UTF-8, attach the
best-effort structured-data decode of stdout, and return a RunResult with
the child handle cleared; on timeout raise `RunTimeout` with the effective
timeout and the partial captured output. The child's behaviour is a
function of the environment it is spawned with. -/
def run (w : World) (r : ScriptSubprocess) (cfg : RunConfig)
    (child : List (String × String) → ProcBehavior) :
    Except RunError (RunResult × ScriptSubprocess) :=
  match resolveScript w r.script_name with
  | .error e => .error e
  | .ok _ =>
    let b := child (buildEnviron w r cfg.env)
    let eff := effectiveTimeout r cfg.timeout
    let out := decodeUtf8Text b.stdoutBytes
    let err := decodeUtf8Text b.stderrBytes
    if eff < b.duration then .error (.runTimeout eff out err)
    else
      .ok ({ returncode := b.exitcode, stdout := out, stderr := err,
             data := jsonParse out },
           { r with child := none })

/-- Modelled from the spec: `start` — resolve the path and spawn a
long-lived child without blocking, recording the child handle. -/
def start (w : World) (r : ScriptSubprocess) (cfg : RunConfig) (pid : Nat)
    (child : List (String × String) → ProcBehavior) :
    Except RunError ScriptSubprocess :=
  match resolveScript w r.script_name with
  | .error e => .error e
  | .ok _ => .ok { r with child := some ⟨pid, child (buildEnviron w r cfg.env)⟩ }

/-- Modelled from the spec: `is_running` — whether the runner currently owns
a live child process; false on a never-started runner and after the child
handle was cleared on natural exit. -/
def is_running (r : ScriptSubprocess) : Bool :=
  r.child.isSome

/-- Modelled from the spec: `terminate` — a no-op returning an absent result
on a runner that never started a process; otherwise stop the child and
return its result, clearing the handle. -/
def terminate (r : ScriptSubprocess) : Option RunResult × ScriptSubprocess :=
  match r.child with
  | none => (none, r)
  | some c =>
    (some { returncode := c.behavior.exitcode,
            stdout := decodeUtf8Text c.behavior.stdoutBytes,
            stderr := decodeUtf8Text c.behavior.stderrBytes,
            data := jsonParse (decodeUtf8Text c.behavior.stdoutBytes) },
     { r with child := none })

/-- Modelled from the spec: the base file name (directory-stripped) of a
script identifier, shown in diagnostics. -/
def baseName (p : String) : String :=
  String.mk ((p.data.reverse.takeWhile (fun c => c != '/')).reverse)

/-- Modelled from the spec: `get_display_name` — a label of the form
KindName(base-file-name), recomputed from the script identifier. -/
def get_display_name (r : ScriptSubprocess) : String :=
  "ScriptSubprocess(" ++ baseName r.script_name ++ ")"

/-- Modelled from the spec: `get_script_path` — the resolved absolute path,
or the `ScriptNotFound` error when resolution fails. -/
def get_script_path (w : World) (r : ScriptSubprocess) : Except RunError String :=
  resolveScript w r.script_name

/-- Pythonic truthiness of an optional list, as in `x or ()` / `x or` an
empty dict: `None` and an empty collection are falsy and yield the empty
collection. Embedded from `Callback.__call__` in
`src/pytestshellutils/customtypes.py`. -/
def pyOr {α : Type} (o : Option (List α)) : List α :=
  match o with
  | none => []
  | some l => if l.isEmpty then [] else l

/-- Embedded from `src/pytestshellutils/customtypes.py`: the frozen attrs
class `Callback` storing a function together with optional pre-bound
positional and keyword arguments (both defaulting to `None`). A Python
callable of mixed arity is modelled as a function of a positional-argument
list and a keyword-argument association list. -/
structure Callback (V R : Type) where
  func : List V → List (String × V) → R
  args : Option (List V) := none
  kwargs : Option (List (String × V)) := none

/-- Embedded from `Callback.__call__`:
`return self.func(*(self.args or ()), **(self.kwargs or {}))`. -/
def Callback.call {V R : Type} (cb : Callback V R) : R :=
  cb.func (pyOr cb.args) (pyOr cb.kwargs)

/-- A concrete world for witnesses: one executable on the search path. -/
def demoWorld : World :=
  { files := ["/usr/bin/python3"], searchPath := ["/usr/bin"], exeSuffixes := [],
    ambientEnviron := [("HOME", "/root"), ("LANG", "C.UTF-8")] }

/-- A runner constructed with an absolute script path and all defaults. -/
def demoRunner : ScriptSubprocess :=
  { script_name := "/usr/bin/python3" }

/-- A runner with a default timeout of 5 set at construction. -/
def demoRunnerT : ScriptSubprocess :=
  { script_name := "/usr/bin/python3", timeout := some 5 }

/-- A per-call configuration overriding the timeout to 1. -/
def demoCfgT : RunConfig :=
  { timeout := some 1 }

/-- The runner's default environment used by the environment witnesses. -/
def demoBaseEnv : List (String × String) :=
  [("FOO", "foo"), ("HOME", "/root")]

/-- The per-call environment override used by the environment witnesses. -/
def demoOvEnv : List (String × String) :=
  [("FOO", "bar")]

/-- A runner with a default environment set at construction. -/
def demoRunnerEnv : ScriptSubprocess :=
  { script_name := "/usr/bin/python3", environ := some demoBaseEnv }

/-- A per-call configuration carrying environment overrides. -/
def demoCfgEnv : RunConfig :=
  { env := some demoOvEnv }

/-- A child that sleeps for 2 time units and exits cleanly. -/
def demoChildSleepy : List (String × String) → ProcBehavior :=
  fun _ => { duration := 2, exitcode := 0, stdoutBytes := [], stderrBytes := [] }

/-- A child that exits immediately with code 40. -/
def demoChildExit40 : List (String × String) → ProcBehavior :=
  fun _ => { duration := 0, exitcode := 40, stdoutBytes := [], stderrBytes := [] }

/-- A child that prints the well-formed JSON document and exits cleanly. -/
def demoChildGoodJson : List (String × String) → ProcBehavior :=
  fun _ => { duration := 0, exitcode := 0,
             stdoutBytes := utf8Encode goodJsonText.data, stderrBytes := [] }

/-- A child that prints the malformed single-quoted document and exits
cleanly. -/
def demoChildBadJson : List (String × String) → ProcBehavior :=
  fun _ => { duration := 0, exitcode := 0,
             stdoutBytes := utf8Encode badJsonText.data, stderrBytes := [] }

/-- The non-ASCII stdout text of the unicode round-trip test. -/
def fatimaOut : String := "STDOUT Fátima"

/-- The non-ASCII stderr text of the unicode round-trip test. -/
def fatimaErr : String := "STDERR Fátima"

/-- A child that writes the UTF-8 encoding of non-ASCII text to both
streams and exits cleanly. -/
def demoChildUnicode : List (String × String) → ProcBehavior :=
  fun _ => { duration := 0, exitcode := 0,
             stdoutBytes := utf8Encode fatimaOut.data,
             stderrBytes := utf8Encode fatimaErr.data }

theorem utf8DecodeChar?_encodeChar (c : Char) (bs : List Nat) :
    utf8DecodeChar? (utf8EncodeChar c ++ bs) = some (c.toNat, bs) := by
  have hv : c.toNat < 55296 ∨ 57343 < c.toNat ∧ c.toNat < 1114112 := c.valid
  by_cases h1 : c.toNat < 128
  · rw [utf8EncodeChar, if_pos h1, List.cons_append, List.nil_append,
      utf8DecodeChar?, if_pos h1]
  · by_cases h2 : c.toNat < 2048
    · rw [utf8EncodeChar, if_neg h1, if_pos h2, List.cons_append, List.cons_append,
        List.nil_append, utf8DecodeChar?, if_neg (by omega), if_neg (by omega),
        if_pos (by omega), utf8Cont1, if_pos (by omega)]
      have hn : (192 + c.toNat / 64 - 192) * 64 + (128 + c.toNat % 64 - 128) = c.toNat := by
        omega
      rw [hn]
    · by_cases h3 : c.toNat < 65536
      · rw [utf8EncodeChar, if_neg h1, if_neg h2, if_pos h3, List.cons_append,
          List.cons_append, List.cons_append, List.nil_append, utf8DecodeChar?,
          if_neg (by omega), if_neg (by omega), if_neg (by omega), if_pos (by omega),
          utf8Cont2, if_pos (by omega)]
        have hn : (224 + c.toNat / 4096 - 224) * 4096 +
            (128 + c.toNat / 64 % 64 - 128) * 64 + (128 + c.toNat % 64 - 128) = c.toNat := by
          omega
        rw [hn]
      · rw [utf8EncodeChar, if_neg h1, if_neg h2, if_neg h3, List.cons_append,
          List.cons_append, List.cons_append, List.cons_append, List.nil_append,
          utf8DecodeChar?, if_neg (by omega), if_neg (by omega), if_neg (by omega),
          if_neg (by omega), if_pos (by omega), utf8Cont3, if_pos (by omega)]
        have hn : (240 + c.toNat / 262144 - 240) * 262144 +
            (128 + c.toNat / 4096 % 64 - 128) * 4096 +
            (128 + c.toNat / 64 % 64 - 128) * 64 + (128 + c.toNat % 64 - 128) = c.toNat := by
          omega
        rw [hn]

theorem utf8EncodeChar_ne_nil (c : Char) : utf8EncodeChar c ≠ [] := by
  rw [utf8EncodeChar]
  by_cases h1 : c.toNat < 128
  · rw [if_pos h1]; simp
  · by_cases h2 : c.toNat < 2048
    · rw [if_neg h1, if_pos h2]; simp
    · by_cases h3 : c.toNat < 65536
      · rw [if_neg h1, if_neg h2, if_pos h3]; simp
      · rw [if_neg h1, if_neg h2, if_neg h3]; simp

theorem utf8DecodeLoop_encode (fuel : Nat) :
    ∀ s : List Char, s.length ≤ fuel → utf8DecodeLoop fuel (utf8Encode s) = some s := by
  induction fuel with
  | zero =>
    intro s hs
    have : s = [] := List.length_eq_zero.mp (Nat.le_zero.mp hs)
    subst this
    rw [utf8Encode]; rfl
  | succ fuel ih =>
    intro s hs
    match s with
    | [] => rw [utf8Encode]; rfl
    | c :: cs =>
      have henc : utf8Encode (c :: cs) = utf8EncodeChar c ++ utf8Encode cs := by
        rw [utf8Encode, utf8Encode, List.map_cons, List.flatten_cons]
      rw [henc]
      match hne : utf8EncodeChar c ++ utf8Encode cs with
      | [] =>
        exact absurd (List.append_eq_nil.mp hne).1 (utf8EncodeChar_ne_nil c)
      | b0 :: rest =>
        rw [utf8DecodeLoop, ← hne, utf8DecodeChar?_encodeChar c (utf8Encode cs)]
        have hlen : cs.length ≤ fuel := by
          have := hs; simp only [List.length_cons] at this; omega
        simp only [ih cs hlen, Char.ofNat_toNat]

theorem length_le_utf8Encode_length (s : List Char) : s.length ≤ (utf8Encode s).length := by
  induction s with
  | nil => rw [utf8Encode]; simp
  | cons c cs ih =>
    have henc : utf8Encode (c :: cs) = utf8EncodeChar c ++ utf8Encode cs := by
      rw [utf8Encode, utf8Encode, List.map_cons, List.flatten_cons]
    rw [henc, List.length_append, List.length_cons]
    have hpos : 1 ≤ (utf8EncodeChar c).length := by
      have := utf8EncodeChar_ne_nil c
      cases h : utf8EncodeChar c with
      | nil => exact absurd h this
      | cons a t => simp
    omega

/-- Decoding inverts encoding: UTF-8 text round-trips exactly. -/
theorem utf8Decode_utf8Encode (s : List Char) :
    utf8Decode (utf8Encode s) = some s := by
  rw [utf8Decode]
  exact utf8DecodeLoop_encode _ s (length_le_utf8Encode_length s)

theorem decodeUtf8Text_utf8Encode (s : String) :
    decodeUtf8Text (utf8Encode s.data) = s := by
  rw [decodeUtf8Text, utf8Decode_utf8Encode]

theorem pyOr_some {α : Type} (l : List α) : pyOr (some l) = l := by
  cases l <;> rfl

/-- C9: a `Callback` constructed with function `f`, positional arguments
`a` and keyword arguments `k` is an immutable value whose fields are
exactly the construction arguments, and invoking it applies exactly the
bound arguments `a` and `k` verbatim to `f`. -/
theorem Callback_call_applies_bound_arguments {V R : Type}
    (f : List V → List (String × V) → R) (a : List V) (k : List (String × V)) :
    Callback.call { func := f, args := some a, kwargs := some k } = f a k ∧
    ({ func := f, args := some a, kwargs := some k } : Callback V R).func = f ∧
    ({ func := f, args := some a, kwargs := some k } : Callback V R).args = some a ∧
    ({ func := f, args := some a, kwargs := some k } : Callback V R).kwargs = some k := by
  refine ⟨?_, rfl, rfl, rfl⟩
  rw [Callback.call, pyOr_some, pyOr_some]

/-- C10: a `Callback` constructed with only a function (args and kwargs
left at their default `None`) is still invocable — invoking it calls the
function with zero positional and zero keyword arguments and returns its
value. -/
theorem Callback_call_defaults_no_arguments {V R : Type}
    (f : List V → List (String × V) → R) :
    Callback.call { func := f } = f [] [] := rfl


/-- C1: for every run call the effective timeout is the per-call override
if one is given, otherwise the runner's default (else the library default);
a child sleeping longer than that effective timeout makes `run` raise the
`RunTimeout` error instead of returning a RunResult; and a per-call
override does not change the runner's default timeout for subsequent
calls. -/
theorem run_effective_timeout_and_default_preserved
    (w : World) (r : ScriptSubprocess) (cfg : RunConfig)
    (child : List (String × String) → ProcBehavior) (p : String)
    (hres : resolveScript w r.script_name = .ok p) :
    effectiveTimeout r cfg.timeout
        = cfg.timeout.getD (r.timeout.getD libraryDefaultTimeout) ∧
    (effectiveTimeout r cfg.timeout < (child (buildEnviron w r cfg.env)).duration →
      run w r cfg child = .error (.runTimeout (effectiveTimeout r cfg.timeout)
        (decodeUtf8Text (child (buildEnviron w r cfg.env)).stdoutBytes)
        (decodeUtf8Text (child (buildEnviron w r cfg.env)).stderrBytes))) ∧
    (∀ res r', run w r cfg child = .ok (res, r') → r'.timeout = r.timeout) := by
  refine ⟨?_, ?_, ?_⟩
  · cases hc : cfg.timeout with
    | some t => simp [effectiveTimeout, hc]
    | none =>
      cases hr : r.timeout with
      | some t => simp [effectiveTimeout, hc, hr]
      | none => simp [effectiveTimeout, hc, hr]
  · intro h
    simp only [run, hres]
    rw [if_pos h]
  · intro res r' hrun
    simp only [run, hres] at hrun
    split at hrun
    · simp at hrun
    · cases hrun
      rfl

/-- C1 witness: with a runner default timeout of 5 and a per-call override
of 1, the effective timeout is 1 and a child sleeping 2 raises the
`RunTimeout` error. -/
theorem run_effective_timeout_and_default_preserved_witness :
    effectiveTimeout demoRunnerT demoCfgT.timeout
        = demoCfgT.timeout.getD (demoRunnerT.timeout.getD libraryDefaultTimeout) ∧
    run demoWorld demoRunnerT demoCfgT demoChildSleepy =
      .error (.runTimeout 1 "" "") := by
  have h := run_effective_timeout_and_default_preserved demoWorld demoRunnerT demoCfgT
    demoChildSleepy "/usr/bin/python3" (by rfl)
  exact ⟨h.1, h.2.1 (by decide)⟩

/-- C2: running a script that terminates with exit code N, for N in the
set 0, 1, 3, 9, 40, 120, returns a RunResult whose return code equals N. -/
theorem run_exitcode_passthrough
    (w : World) (r : ScriptSubprocess) (cfg : RunConfig)
    (child : List (String × String) → ProcBehavior) (p : String) (n : Int)
    (_hn : n ∈ ([0, 1, 3, 9, 40, 120] : List Int))
    (hres : resolveScript w r.script_name = .ok p)
    (hdur : (child (buildEnviron w r cfg.env)).duration ≤ effectiveTimeout r cfg.timeout)
    (hexit : (child (buildEnviron w r cfg.env)).exitcode = n) :
    ∃ res r', run w r cfg child = .ok (res, r') ∧ res.returncode = n := by
  have hok : run w r cfg child = .ok
      ({ returncode := (child (buildEnviron w r cfg.env)).exitcode,
         stdout := decodeUtf8Text (child (buildEnviron w r cfg.env)).stdoutBytes,
         stderr := decodeUtf8Text (child (buildEnviron w r cfg.env)).stderrBytes,
         data := jsonParse (decodeUtf8Text (child (buildEnviron w r cfg.env)).stdoutBytes) },
       { r with child := none }) := by
    simp only [run, hres]
    rw [if_neg (by omega)]
  exact ⟨_, _, hok, hexit⟩

/-- C2 witness: a child exiting with code 40 yields a RunResult with
return code 40. -/
theorem run_exitcode_passthrough_witness :
    ∃ res r', run demoWorld demoRunner {} demoChildExit40 = .ok (res, r') ∧
      res.returncode = 40 :=
  run_exitcode_passthrough demoWorld demoRunner {} demoChildExit40
    "/usr/bin/python3" 40 (by decide) (by rfl) (by decide) (by rfl)


theorem run_ok_of_within_timeout
    (w : World) (r : ScriptSubprocess) (cfg : RunConfig)
    (child : List (String × String) → ProcBehavior) (p : String)
    (hres : resolveScript w r.script_name = .ok p)
    (hdur : (child (buildEnviron w r cfg.env)).duration
        ≤ effectiveTimeout r cfg.timeout) :
    run w r cfg child = .ok
      ({ returncode := (child (buildEnviron w r cfg.env)).exitcode,
         stdout := decodeUtf8Text (child (buildEnviron w r cfg.env)).stdoutBytes,
         stderr := decodeUtf8Text (child (buildEnviron w r cfg.env)).stderrBytes,
         data := jsonParse
           (decodeUtf8Text (child (buildEnviron w r cfg.env)).stdoutBytes) },
       { r with child := none }) := by
  simp only [run, hres]
  rw [if_neg (by omega)]

/-- C3: on natural exit the RunResult's decoded data is exactly the
best-effort JSON parse of stdout — equal to the parsed value when stdout
(stripped of surrounding whitespace) parses, absent when it does not — and
in either case no error is raised and the stdout text equals the raw
output verbatim. -/
theorem run_json_decode_best_effort
    (w : World) (r : ScriptSubprocess) (cfg : RunConfig)
    (child : List (String × String) → ProcBehavior) (p : String) (s : String)
    (hres : resolveScript w r.script_name = .ok p)
    (hdur : (child (buildEnviron w r cfg.env)).duration
        ≤ effectiveTimeout r cfg.timeout)
    (hbytes : (child (buildEnviron w r cfg.env)).stdoutBytes = utf8Encode s.data) :
    ∃ res r', run w r cfg child = .ok (res, r') ∧
      res.stdout = s ∧
      res.data = jsonParse s ∧
      (∀ v, jsonParse s = some v → res.data = some v) ∧
      (jsonParse s = none → res.data = none) := by
  have hout : decodeUtf8Text (child (buildEnviron w r cfg.env)).stdoutBytes = s := by
    rw [hbytes, decodeUtf8Text_utf8Encode]
  refine ⟨_, _, run_ok_of_within_timeout w r cfg child p hres hdur, hout, ?_, ?_, ?_⟩
  · show jsonParse (decodeUtf8Text (child (buildEnviron w r cfg.env)).stdoutBytes)
        = jsonParse s
    rw [hout]
  · intro v hv
    show jsonParse (decodeUtf8Text (child (buildEnviron w r cfg.env)).stdoutBytes)
        = some v
    rw [hout, hv]
  · intro hv
    show jsonParse (decodeUtf8Text (child (buildEnviron w r cfg.env)).stdoutBytes)
        = none
    rw [hout, hv]

/-- C3 witness: the well-formed document decodes to the equivalent
structured value, the single-quoted document leaves decoded data absent,
and both runs return normally with stdout verbatim. -/
theorem run_json_decode_best_effort_witness :
    (∃ res r', run demoWorld demoRunner {} demoChildGoodJson = .ok (res, r') ∧
      res.stdout = goodJsonText ∧
      res.data = jsonParse goodJsonText ∧
      (∀ v, jsonParse goodJsonText = some v → res.data = some v) ∧
      (jsonParse goodJsonText = none → res.data = none)) ∧
    (∃ res r', run demoWorld demoRunner {} demoChildBadJson = .ok (res, r') ∧
      res.stdout = badJsonText ∧
      res.data = jsonParse badJsonText ∧
      (∀ v, jsonParse badJsonText = some v → res.data = some v) ∧
      (jsonParse badJsonText = none → res.data = none)) ∧
    jsonParse goodJsonText = some (.obj [("a", .str "a"), ("1", .num 1)]) ∧
    jsonParse badJsonText = none :=
  ⟨run_json_decode_best_effort demoWorld demoRunner {} demoChildGoodJson
      "/usr/bin/python3" goodJsonText (by rfl) (by decide) (by rfl),
   run_json_decode_best_effort demoWorld demoRunner {} demoChildBadJson
      "/usr/bin/python3" badJsonText (by rfl) (by decide) (by rfl),
   by rfl, by rfl⟩

/-- C8: text bytes a child writes to stdout and stderr are captured as
exactly their UTF-8 decoding — writing the UTF-8 encoding of any text (in
particular non-ASCII text) round-trips verbatim into the RunResult's
stdout and stderr fields. -/
theorem run_utf8_roundtrip
    (w : World) (r : ScriptSubprocess) (cfg : RunConfig)
    (child : List (String × String) → ProcBehavior) (p : String) (so se : String)
    (hres : resolveScript w r.script_name = .ok p)
    (hdur : (child (buildEnviron w r cfg.env)).duration
        ≤ effectiveTimeout r cfg.timeout)
    (hso : (child (buildEnviron w r cfg.env)).stdoutBytes = utf8Encode so.data)
    (hse : (child (buildEnviron w r cfg.env)).stderrBytes = utf8Encode se.data) :
    ∃ res r', run w r cfg child = .ok (res, r') ∧
      res.stdout = so ∧ res.stderr = se := by
  refine ⟨_, _, run_ok_of_within_timeout w r cfg child p hres hdur, ?_, ?_⟩
  · show decodeUtf8Text (child (buildEnviron w r cfg.env)).stdoutBytes = so
    rw [hso, decodeUtf8Text_utf8Encode]
  · show decodeUtf8Text (child (buildEnviron w r cfg.env)).stderrBytes = se
    rw [hse, decodeUtf8Text_utf8Encode]

/-- C8 witness: the accented texts written by the unicode test round-trip
byte-for-byte through UTF-8 into the captured stdout and stderr. -/
theorem run_utf8_roundtrip_witness :
    ∃ res r', run demoWorld demoRunner {} demoChildUnicode = .ok (res, r') ∧
      res.stdout = fatimaOut ∧ res.stderr = fatimaErr :=
  run_utf8_roundtrip demoWorld demoRunner {} demoChildUnicode
    "/usr/bin/python3" fatimaOut fatimaErr (by rfl) (by decide) (by rfl) (by rfl)


/-- C4: a bare executable name that resolves on the search path yields the
same absolute path as constructing the runner with that absolute path
directly; a name with no match anywhere yields the `ScriptNotFound` error
naming exactly the requested identifier. -/
theorem get_script_path_resolves_and_errors (w : World) (name p : String) :
    (get_script_path w { script_name := name } = .ok p →
      get_script_path w { script_name := p } = .ok p) ∧
    (w.files.contains name = false →
      (∀ c ∈ scriptCandidates w name, w.files.contains c = false) →
      get_script_path w { script_name := name }
        = .error (.scriptNotFound name)) := by
  constructor
  · intro h
    simp only [get_script_path, resolveScript] at h ⊢
    by_cases hc : w.files.contains name = true
    · rw [if_pos hc] at h
      cases h
      rw [if_pos hc]
    · rw [if_neg hc] at h
      cases hfind : (scriptCandidates w name).find? (fun q => w.files.contains q) with
      | some q =>
        rw [hfind] at h
        cases h
        rw [if_pos (List.find?_some hfind)]
      | none =>
        rw [hfind] at h
        simp at h
  · intro hc hall
    simp only [get_script_path, resolveScript]
    rw [if_neg (by rw [hc]; simp)]
    have hnone : (scriptCandidates w name).find? (fun q => w.files.contains q)
        = none := by
      rw [List.find?_eq_none]
      intro x hx
      rw [hall x hx]
      simp
    rw [hnone]

/-- C4 witness: in the demo world, the bare name resolves to the same
absolute path as the absolute path itself, and an unknown name fails with
the `ScriptNotFound` error naming it. -/
theorem get_script_path_resolves_and_errors_witness :
    get_script_path demoWorld { script_name := "python3" }
        = .ok "/usr/bin/python3" ∧
    get_script_path demoWorld { script_name := "/usr/bin/python3" }
        = .ok "/usr/bin/python3" ∧
    get_script_path demoWorld { script_name := "python3.100" }
        = .error (.scriptNotFound "python3.100") :=
  ⟨by rfl,
   (get_script_path_resolves_and_errors demoWorld "python3" "/usr/bin/python3").1
     (by rfl),
   (get_script_path_resolves_and_errors demoWorld "python3.100" "").2
     (by rfl) (by decide)⟩

theorem lookup_append_strings (k : String) (l1 l2 : List (String × String)) :
    (l1 ++ l2).lookup k =
      match l1.lookup k with
      | some v => some v
      | none => l2.lookup k := by
  induction l1 with
  | nil => rfl
  | cons a t ih =>
    obtain ⟨a1, a2⟩ := a
    simp only [List.cons_append, List.lookup]
    cases hk : k == a1 <;> simp [ih]

theorem lookup_filter_keep (k : String) (base ov : List (String × String))
    (h : ov.lookup k = none) :
    (base.filter (fun kv => (ov.lookup kv.fst).isNone)).lookup k
      = base.lookup k := by
  induction base with
  | nil => rfl
  | cons a t ih =>
    obtain ⟨a1, a2⟩ := a
    by_cases hk : k = a1
    · subst hk
      have hp : (ov.lookup k).isNone = true := by rw [h]; rfl
      simp [List.filter_cons, hp, List.lookup]
    · have hne : (k == a1) = false := by simp [hk]
      by_cases hp : (ov.lookup a1).isNone = true
      · simp [List.filter_cons, hp, List.lookup, hne, ih]
      · simp [List.filter_cons, hp, List.lookup, hne, ih]

theorem lookup_filter_drop (k : String) (base ov : List (String × String))
    (v : String) (h : ov.lookup k = some v) :
    (base.filter (fun kv => (ov.lookup kv.fst).isNone)).lookup k = none := by
  induction base with
  | nil => rfl
  | cons a t ih =>
    obtain ⟨a1, a2⟩ := a
    by_cases hk : k = a1
    · subst hk
      have hp : (ov.lookup k).isNone = false := by rw [h]; rfl
      simp [List.filter_cons, hp, ih]
    · have hne : (k == a1) = false := by simp [hk]
      by_cases hp : (ov.lookup a1).isNone = true
      · simp [List.filter_cons, hp, List.lookup, hne, ih]
      · simp [List.filter_cons, hp, ih]

/-- C5: the environment `run` hands to the child maps every key overridden
by the per-call environment to the per-call value — taking precedence over
the runner's default environment for identically-named keys — while every
default-environment variable with an unrelated name remains present with
its original value. -/
theorem run_environ_override_precedence
    (w : World) (r : ScriptSubprocess) (cfg : RunConfig)
    (base ov : List (String × String)) (k : String)
    (henv : r.environ = some base) (hcfg : cfg.env = some ov) :
    buildEnviron w r cfg.env = mergeEnviron base ov ∧
    (∀ v, ov.lookup k = some v →
      (buildEnviron w r cfg.env).lookup k = some v) ∧
    (ov.lookup k = none →
      (buildEnviron w r cfg.env).lookup k = base.lookup k) := by
  have hbe : buildEnviron w r cfg.env = mergeEnviron base ov := by
    simp [buildEnviron, henv, hcfg]
  refine ⟨hbe, ?_, ?_⟩
  · intro v hv
    rw [hbe, mergeEnviron, lookup_append_strings,
      lookup_filter_drop k base ov v hv, hv]
  · intro hv
    rw [hbe, mergeEnviron, lookup_append_strings, lookup_filter_keep k base ov hv]
    cases hb : base.lookup k with
    | some u => rfl
    | none => exact hv

/-- C5 witness: with default environment FOO=foo, HOME=/root and per-call
override FOO=bar, the child sees FOO=bar while HOME keeps its original
value. -/
theorem run_environ_override_precedence_witness :
    (buildEnviron demoWorld demoRunnerEnv demoCfgEnv.env
        = mergeEnviron demoBaseEnv demoOvEnv ∧
      (∀ v, demoOvEnv.lookup "FOO" = some v →
        (buildEnviron demoWorld demoRunnerEnv demoCfgEnv.env).lookup "FOO"
          = some v) ∧
      (demoOvEnv.lookup "FOO" = none →
        (buildEnviron demoWorld demoRunnerEnv demoCfgEnv.env).lookup "FOO"
          = demoBaseEnv.lookup "FOO")) ∧
    (buildEnviron demoWorld demoRunnerEnv demoCfgEnv.env).lookup "FOO"
        = some "bar" ∧
    (buildEnviron demoWorld demoRunnerEnv demoCfgEnv.env).lookup "HOME"
        = some "/root" :=
  ⟨run_environ_override_precedence demoWorld demoRunnerEnv demoCfgEnv
      demoBaseEnv demoOvEnv "FOO" (by rfl) (by rfl),
   by rfl, by rfl⟩

/-- C6: on a runner on which no process was ever started, `terminate`
returns an absent result (and, being total, raises nothing) and
`is_running` is false; `is_running` is also false on the runner state
returned after a natural exit. -/
theorem lifecycle_not_started_and_after_exit
    (r : ScriptSubprocess) (h : r.child = none) :
    is_running r = false ∧
    terminate r = (none, r) ∧
    (∀ w cfg child res r', run w r cfg child = .ok (res, r') →
      is_running r' = false) := by
  refine ⟨?_, ?_, ?_⟩
  · simp [is_running, h]
  · simp [terminate, h]
  · intro w cfg child res r' hrun
    cases hres : resolveScript w r.script_name with
    | error e =>
      simp only [run, hres] at hrun
      simp at hrun
    | ok q =>
      simp only [run, hres] at hrun
      split at hrun
      · simp at hrun
      · cases hrun
        rfl

/-- C6 witness: the never-started demo runner is not running and terminates
to an absent result; after a natural exit the returned runner is not
running. -/
theorem lifecycle_not_started_and_after_exit_witness :
    (is_running demoRunner = false ∧ terminate demoRunner = (none, demoRunner)) ∧
    is_running demoRunner = false :=
  ⟨⟨(lifecycle_not_started_and_after_exit demoRunner rfl).1,
    (lifecycle_not_started_and_after_exit demoRunner rfl).2.1⟩,
   (lifecycle_not_started_and_after_exit demoRunner rfl).1⟩

theorem takeWhile_append_stop {α : Type} (p : α → Bool) (l1 l2 : List α) (a : α)
    (h1 : ∀ x ∈ l1, p x = true) (ha : p a = false) :
    (l1 ++ a :: l2).takeWhile p = l1 := by
  induction l1 with
  | nil => simp [List.takeWhile_cons, ha]
  | cons x t ih =>
    have hx : p x = true := h1 x (by simp)
    simp [List.takeWhile_cons, hx, ih (fun y hy => h1 y (by simp [hy]))]

theorem baseName_append (dir fname : String)
    (hf : ∀ c ∈ fname.data, c ≠ '/') :
    baseName (dir ++ "/" ++ fname) = fname := by
  rw [baseName]
  have hdata : (dir ++ "/" ++ fname).data = dir.data ++ '/' :: fname.data := by
    rw [String.data_append, String.data_append]
    simp
  rw [hdata, List.reverse_append, List.reverse_cons]
  have htw : ((fname.data.reverse ++ ['/']) ++ dir.data.reverse).takeWhile
      (fun c => c != '/') = fname.data.reverse := by
    rw [List.append_assoc, List.singleton_append]
    refine takeWhile_append_stop _ _ _ _ ?_ (by simp)
    intro x hx
    have : x ∈ fname.data := List.mem_reverse.mp hx
    simp [hf x this]
  rw [htw, List.reverse_reverse]

/-- C7: the display name always has the form KindName(base-file-name),
where the base file name is the directory-stripped name of the script
identifier, and its value before a run is identical to its value after the
run completes. -/
theorem display_name_form_and_stable
    (dir fname : String) (hf : ∀ c ∈ fname.data, c ≠ '/') :
    get_display_name { script_name := dir ++ "/" ++ fname } =
      "ScriptSubprocess(" ++ fname ++ ")" ∧
    (∀ w cfg child res r',
      run w { script_name := dir ++ "/" ++ fname } cfg child = .ok (res, r') →
      get_display_name r'
        = get_display_name
            ({ script_name := dir ++ "/" ++ fname } : ScriptSubprocess)) := by
  constructor
  · rw [get_display_name]
    rw [show ({ script_name := dir ++ "/" ++ fname } : ScriptSubprocess).script_name
        = dir ++ "/" ++ fname from rfl]
    rw [baseName_append dir fname hf]
  · intro w cfg child res r' hrun
    simp only [run] at hrun
    split at hrun
    · simp at hrun
    · split at hrun
      · simp at hrun
      · cases hrun
        rfl

/-- C7 witness: a runner built from the absolute path /usr/bin/python3
displays as ScriptSubprocess(python3). -/
theorem display_name_form_and_stable_witness :
    get_display_name { script_name := "/usr/bin" ++ "/" ++ "python3" } =
      "ScriptSubprocess(" ++ "python3" ++ ")" :=
  (display_name_form_and_stable "/usr/bin" "python3" (by decide)).1

end ShellUtils
